import Mathlib

/-!
Verification development for the TriantaduoWS28xxMod LED driver
(`src/TDWS28XX.h`, `src/TDWS28XX.cpp`).

The driver streams bit-plane-transposed pixel data to up to 32 LED strips
through a chain of DMA transfer descriptors.  This file gives a shallow
embedding of the pure data manipulation of the source: machine integers
are modelled as `Nat` (32-bit words keep the invariant `< 2^32` where it
matters), frame buffers as functions `Nat → Nat` from word index to word
value, and each C loop as a recursive Lean function mirroring the loop
body.  Hardware register writes that carry no data dependence for the
properties below (cache flushes, FlexIO configuration) are not part of
the state.
-/

namespace TDWS28XX

/-- `MaxDMAIterationsPerTCD = DMA_TCD_BITER_MASK = 0x7fff`: the maximum
value of the BITER/CITER field, i.e. the maximum number of word transfers
a single DMA descriptor can perform (TDWS28XX.cpp line 39). -/
def MaxDMAIterationsPerTCD : Nat := 32767

/-- `enum ChannelType { RGB, GRB, GRBW }` (TDWS28XX.h line 68). -/
inductive ChannelType where
  | RGB
  | GRB
  | GRBW
deriving DecidableEq, Repr

/-- `enum ColorCapability { TRICOLOR, QUADCOLOR }` (TDWS28XX.h line 69). -/
inductive ColorCapability where
  | TRICOLOR
  | QUADCOLOR
deriving DecidableEq, Repr

/-- `enum BufferMode` as used by TDWS28XX.cpp (lines 338, 343, 354, 361,
372): a caller-paced single buffer, a free-running single buffer, and a
double buffer.  (The header variant shipped in the repo names the modes
`SINGLE_BUFFER, DOUBLE_BUFFER, DOUBLE_BUFFER_CONTINUOUS`; the .cpp is the
authority for the behavioural claims below.) -/
inductive BufferMode where
  | SINGLE_BUFFER_BLOCKING
  | SINGLE_BUFFER
  | DOUBLE_BUFFER
deriving DecidableEq, Repr

/-- `union Color` (TDWS28XX.h lines 41-61): a packed 32-bit value.  We
model the union by its `raw` member; on the little-endian target the
first-declared byte (`_` padding for the three-channel layouts, `white`
for GRBW) is the least significant byte of `raw`. -/
structure Color where
  raw : Nat
deriving DecidableEq, Repr

/-- `inline Color rgb(r,g,b)` (TDWS28XX.h line 63): bytes `{0, b, g, r}`
little-endian, so `raw = r<<24 | g<<16 | b<<8`. -/
def rgb (r g b : Nat) : Color := ⟨r * 2 ^ 24 + g * 2 ^ 16 + b * 2 ^ 8⟩

/-- `inline Color grb(g,r,b)` (TDWS28XX.h line 64): bytes `{0, b, r, g}`. -/
def grb (g r b : Nat) : Color := ⟨g * 2 ^ 24 + r * 2 ^ 16 + b * 2 ^ 8⟩

/-- `inline Color grbw(g,r,b,w)` (TDWS28XX.h line 65): bytes `{w, b, r, g}`. -/
def grbw (g r b w : Nat) : Color := ⟨g * 2 ^ 24 + r * 2 ^ 16 + b * 2 ^ 8 + w⟩

/-- `struct FlexPins` (TDWS28XX.h lines 76-80). -/
structure FlexPins where
  SRCLK : Nat
  RCLK : Nat
  SER : Nat
deriving DecidableEq, Repr

/-- A frame buffer: word index to 32-bit word value. -/
def Buffer : Type := Nat → Nat

/-- The `while (ledMask) { ... }` loop of `PixelDriver::setLed`
(TDWS28XX.cpp lines 398-406): walk one word per mask bit, OR-ing in or
AND-ing out the channel's bit depending on the corresponding bit of the
color value.  `4294967295 ^^^ channelMask` is the 32-bit `~channelMask`. -/
def setLoop (channelMask ledValue : Nat) (buffer : Buffer) (addr ledMask : Nat) : Buffer :=
  if h : ledMask = 0 then buffer
  else
    setLoop channelMask ledValue
      (fun w =>
        if w = addr then
          (if ledValue &&& ledMask ≠ 0 then buffer w ||| channelMask
           else buffer w &&& (4294967295 ^^^ channelMask))
        else buffer w)
      (addr + 1) (ledMask >>> 1)
termination_by ledMask
decreasing_by
  simp only [Nat.shiftRight_succ, Nat.shiftRight_zero]
  exact Nat.div_lt_self (Nat.pos_of_ne_zero h) (by norm_num)

/-- `PixelDriver::setLed` (TDWS28XX.cpp lines 382-407); the header
variant `PixelDriver::setPixel` (TDWS28XX.h lines 161-186) is textually
the same function.  Out-of-range writes return the buffer untouched. -/
def setLed (channelTypes : Nat → ChannelType) (leds : Nat)
    (channel ledIndex : Nat) (color : Color) (buffer : Buffer) : Buffer :=
  if 31 < channel ∨ leds ≤ ledIndex then buffer
  else
    let channelMask := 1 <<< channel
    if channelTypes channel = ChannelType.GRBW then
      setLoop channelMask color.raw buffer (32 * ledIndex) (1 <<< 31)
    else
      setLoop channelMask (color.raw >>> 8) buffer (24 * ledIndex) (1 <<< 23)

/-- The `while (count--) { ... }` loop of `PixelDriver::getLed`
(TDWS28XX.cpp lines 424-430): step the word pointer down, shift the
accumulator right, and set bit 31 when the channel's bit is set in the
word just read. -/
def getLoop (channelMask : Nat) (buffer : Buffer) : Nat → Nat → Nat → Nat
  | _, 0, craw => craw
  | addr, count + 1, craw =>
    getLoop channelMask buffer (addr - 1) count
      (if buffer (addr - 1) &&& channelMask ≠ 0 then (craw >>> 1) ||| (1 <<< 31)
       else craw >>> 1)

/-- `PixelDriver::getPixel` of the header variant (TDWS28XX.h lines
188-213), which explicitly starts the accumulator at `c.raw = 0`. -/
def getPixel (channelTypes : Nat → ChannelType) (leds : Nat)
    (channel ledIndex : Nat) (buffer : Buffer) : Color :=
  if 31 < channel ∨ leds ≤ ledIndex then ⟨0⟩
  else
    let channelMask := 1 <<< channel
    if channelTypes channel = ChannelType.GRBW then
      ⟨getLoop channelMask buffer (32 * ledIndex + 32) 32 0⟩
    else
      ⟨getLoop channelMask buffer (24 * ledIndex + 24) 24 0⟩

/-- `PixelDriver::getLed` (TDWS28XX.cpp lines 409-436).  Its local
`Color c;` is default-initialised (indeterminate); the parameter `c0`
stands for that indeterminate initial value.  The out-of-range branch
returns the value-initialised `Color()`, i.e. zero. -/
def getLed (channelTypes : Nat → ChannelType) (leds : Nat)
    (channel ledIndex : Nat) (buffer : Buffer) (c0 : Nat) : Color :=
  if 31 < channel ∨ leds ≤ ledIndex then ⟨0⟩
  else
    let channelMask := 1 <<< channel
    if channelTypes channel = ChannelType.GRBW then
      ⟨getLoop channelMask buffer (32 * ledIndex + 32) 32 c0⟩
    else
      ⟨getLoop channelMask buffer (24 * ledIndex + 24) 24 c0⟩

/-- `PixelDriver::setChannelType` (TDWS28XX.cpp lines 438-443):
`channelTypes` is the 0..31-indexed map of per-channel formats. -/
def setChannelType (cc : ColorCapability) (channelTypes : Nat → ChannelType)
    (channel : Nat) (type_ : ChannelType) : Nat → ChannelType :=
  if 32 ≤ channel then channelTypes
  else if type_ = ChannelType.GRBW ∧ cc ≠ ColorCapability.QUADCOLOR then channelTypes
  else fun c => if c = channel then type_ else channelTypes c

/-- The `dmasDataSegmentsCount` computation of the constructor
(TDWS28XX.cpp lines 60-66): `ip->bsz / sizeof(uint32_t) /
MaxDMAIterationsPerTCD + 1`, then clamped to the 4-element capacity of
`dmasDataSegments`.  The constructor never rejects a configuration. -/
def dmasDataSegmentsCount (bsz : Nat) : Nat :=
  if 4 < bsz / 4 / MaxDMAIterationsPerTCD + 1 then 4
  else bsz / 4 / MaxDMAIterationsPerTCD + 1

/-- The DATA_STREAM descriptor-building loop of `PixelDriver::configureDma`
(TDWS28XX.cpp lines 303-312), producing for each descriptor its source
word address and transfer length in words: `sz = remaining >= max ? max :
remaining`, `bptr += max`, `remaining -= sz`. -/
def segLoop (bptr remaining : Nat) : Nat → List (Nat × Nat)
  | 0 => []
  | n + 1 =>
    (bptr, if MaxDMAIterationsPerTCD ≤ remaining then MaxDMAIterationsPerTCD else remaining)
      :: segLoop (bptr + MaxDMAIterationsPerTCD)
        (remaining - (if MaxDMAIterationsPerTCD ≤ remaining then MaxDMAIterationsPerTCD else remaining))
        n

/-- The DATA_STREAM descriptors configured by `configureDma` for a frame
buffer half of `bsz` bytes whose active half starts at word address
`active`: `remaining = ip->bsz / sizeof(uint32_t)` words split over
`dmasDataSegmentsCount` descriptors. -/
def dataSegments (active bsz : Nat) : List (Nat × Nat) :=
  segLoop active (bsz / 4) (dmasDataSegmentsCount bsz)

/-- The successor indices `i+1` read by the chain-building loop
`dmasDataSegments[i].replaceSettingsOnCompletion(dmasDataSegments[i+1])`
for `i = 0 .. count-1` (TDWS28XX.cpp line 309). -/
def successorAccesses (count : Nat) : List Nat :=
  (List.range count).map (fun i => i + 1)

/-- The mutable driver state touched by `flipBuffers` and `dmaIsr`: the
active/inactive frame-buffer word addresses, the `SADDR` fields of the
four `dmasDataSegments` TCDs, the `DMA_TCD_CSR_INTMAJOR` bit of the
`dmasSetZeros` (CLOSE_GATE) TCD, and whether the DMA channel is enabled. -/
structure DriverState where
  activeBuffer : Nat
  inactiveBuffer : Nat
  saddr : Nat → Nat
  closeGateIntMajor : Bool
  dmaEnabled : Bool

/-- The `for (unsigned i = 0; i < dmasDataSegmentsCount; ++i)` loop of
`PixelDriver::dmaIsr` (TDWS28XX.cpp lines 134-138): write `bptr` into
`SADDR` of descriptor `i`, then advance `bptr` by
`MaxDMAIterationsPerTCD` words. -/
def saddrLoop (saddr : Nat → Nat) (bptr i : Nat) : Nat → (Nat → Nat)
  | 0 => saddr
  | n + 1 =>
    saddrLoop (fun j => if j = i then bptr else saddr j)
      (bptr + MaxDMAIterationsPerTCD) (i + 1) n

/-- `PixelDriver::dmaIsr` (TDWS28XX.cpp lines 129-144): clear the
INTMAJOR bit of the CLOSE_GATE TCD, then rewrite every DATA_STREAM
descriptor's source address starting from the active buffer.  (The final
`clearInterrupt`/barriers touch no modelled state.) -/
def dmaIsr (count : Nat) (s : DriverState) : DriverState :=
  { s with
    closeGateIntMajor := false
    saddr := saddrLoop s.saddr s.activeBuffer 0 count }

/-- `PixelDriver::flipBuffers` (TDWS28XX.cpp lines 351-376).  `pFlex`
guards against an unstarted driver.  In `SINGLE_BUFFER_BLOCKING` the
function spins until the channel is idle and re-triggers it; in
`DOUBLE_BUFFER` it swaps the two buffer pointers and sets the INTMAJOR
bit of the CLOSE_GATE TCD; in `SINGLE_BUFFER` it only flushes the cache
(no modelled state change). -/
def flipBuffers (bm : BufferMode) (pFlex : Bool) (s : DriverState) : DriverState :=
  if pFlex = false then s
  else
    match bm with
    | BufferMode.SINGLE_BUFFER_BLOCKING => { s with dmaEnabled := true }
    | BufferMode.DOUBLE_BUFFER =>
        { s with
          activeBuffer := s.inactiveBuffer
          inactiveBuffer := s.activeBuffer
          closeGateIntMajor := true }
    | BufferMode.SINGLE_BUFFER => s

/-- `PixelDriver::bufferReady` (TDWS28XX.cpp lines 378-380):
`! (ip->bm == SINGLE_BUFFER_BLOCKING && dmaEnabled(dmaChannel))`. -/
def bufferReady (bm : BufferMode) (s : DriverState) : Bool :=
  ! (decide (bm = BufferMode.SINGLE_BUFFER_BLOCKING) && s.dmaEnabled)

/-- The per-instance fields read and written by `PixelDriver::begin`. -/
structure Inst where
  leds : Nat
  bm : BufferMode
  bsz : Nat
  bptr : Nat
  flexIOModule : Nat
  flexPins : FlexPins
  pFlex : Bool
  activeBuffer : Nat
  inactiveBuffer : Nat

/-- The process-wide state read and written by `PixelDriver::begin`: the
static `instanceCount`, the `instances[2]` registry (modelled as
occupancy of each FlexIO module slot), and the `POWERDOWN` bit of
`CCM_ANALOG_PLL_VIDEO` (true means PLL5 is idle). -/
structure Globals where
  instanceCount : Nat
  instances : Nat → Bool
  pll5PowerDown : Bool

/-- `PixelDriver::begin` (TDWS28XX.cpp lines 80-127).  `pinMap m pin`
models `FlexIOHandler::mapIOPinToFlexPin` of module `m` (an external
hardware table); `255` (`0xff`) marks an unusable pin.  Note the source
assigns `flexIOModule` and `flexPins` before any validation.  On success
it registers the instance, sets up the buffer pointers, zeroes and
flushes both buffer halves (buffer contents are not part of `Inst`),
powers up PLL5 when this is the first instance, configures the
peripherals, and increments the instance count. -/
def begin (pinMap : Nat → Nat → Nat) (s : Inst) (g : Globals)
    (m : Nat) (pins : FlexPins) : Bool × Inst × Globals :=
  let s1 := { s with flexIOModule := m, flexPins := pins }
  if s1.leds = 0 then (false, s1, g)
  else if 1 < m then (false, s1, g)
  else if s1.pFlex then (false, s1, g)
  else if g.instances m then (false, s1, g)
  else if g.instanceCount = 0 ∧ g.pll5PowerDown = false then (false, s1, g)
  else if pinMap m pins.SRCLK = 255 then (false, s1, g)
  else if pinMap m pins.RCLK = 255 then (false, s1, g)
  else if pinMap m pins.SER = 255 then (false, s1, g)
  else
    let g1 := { g with instances := fun k => if k = m then true else g.instances k }
    let s2 := { s1 with
      activeBuffer := s1.bptr
      inactiveBuffer := if s1.bm = BufferMode.DOUBLE_BUFFER then s1.bptr + s1.bsz else s1.bptr
      pFlex := true }
    let g2 := if g1.instanceCount = 0 then { g1 with pll5PowerDown := false } else g1
    (true, s2, { g2 with instanceCount := g2.instanceCount + 1 })

/-! ## Generic helper lemmas about the loops -/

lemma one_shiftLeft_eq (n : Nat) : 1 <<< n = 2 ^ n := by
  rw [Nat.shiftLeft_eq, one_mul]

lemma and_two_pow_ne_zero_iff (x n : Nat) : x &&& 2 ^ n ≠ 0 ↔ x.testBit n = true := by
  rw [Nat.and_two_pow]
  cases h : x.testBit n <;> simp

lemma saddrLoop_get :
    ∀ (n : Nat) (saddr : Nat → Nat) (bptr i j : Nat),
      saddrLoop saddr bptr i n j =
        if i ≤ j ∧ j < i + n then bptr + (j - i) * MaxDMAIterationsPerTCD else saddr j := by
  intro n
  induction n with
  | zero =>
    intro saddr bptr i j
    rw [saddrLoop, if_neg (by omega)]
  | succ n ih =>
    intro saddr bptr i j
    rw [saddrLoop, ih]
    by_cases h1 : i + 1 ≤ j ∧ j < i + 1 + n
    · rw [if_pos h1, if_pos (by omega)]
      simp only [MaxDMAIterationsPerTCD]
      omega
    · rw [if_neg h1]
      by_cases h2 : j = i
      · subst h2
        rw [if_pos rfl, if_pos (by omega), Nat.sub_self, Nat.zero_mul, Nat.add_zero]
      · rw [if_neg h2, if_neg (by omega)]

lemma segLoop_get :
    ∀ (n : Nat) (bptr r i : Nat), i < n →
      (segLoop bptr r n).get? i =
        some (bptr + i * MaxDMAIterationsPerTCD,
          min (r - i * MaxDMAIterationsPerTCD) MaxDMAIterationsPerTCD) := by
  intro n
  induction n with
  | zero => intro bptr r i hi; omega
  | succ n ih =>
    intro bptr r i hi
    match i with
    | 0 =>
      simp only [segLoop, List.get?_cons_zero, Nat.zero_mul, Nat.add_zero, Nat.sub_zero]
      have h2 : (if MaxDMAIterationsPerTCD ≤ r then MaxDMAIterationsPerTCD else r)
          = min r MaxDMAIterationsPerTCD := by
        rw [Nat.min_def]; split_ifs <;> omega
      rw [h2]
    | i + 1 =>
      simp only [segLoop, List.get?_cons_succ]
      rw [ih _ _ _ (by omega)]
      have harg : r - (if MaxDMAIterationsPerTCD ≤ r then MaxDMAIterationsPerTCD else r)
          - i * MaxDMAIterationsPerTCD = r - (i + 1) * MaxDMAIterationsPerTCD := by
        simp only [MaxDMAIterationsPerTCD]
        split_ifs <;> omega
      rw [harg]
      have haddr : bptr + MaxDMAIterationsPerTCD + i * MaxDMAIterationsPerTCD
          = bptr + (i + 1) * MaxDMAIterationsPerTCD := by
        simp only [MaxDMAIterationsPerTCD]; omega
      rw [haddr]

/-! ## C3: DATA_STREAM descriptor count -/

/-- C3 counterexample: at `bsz = 131068` bytes the per-frame word count is
exactly `32767 = MaxDMAIterationsPerTCD`, so the spec's
`ceil(bufferWords / maxTransferCountPerDescriptor)` capped at 4 is 1, but
the constructor computes `words / max + 1 = 2` descriptors. -/
theorem dmasDataSegmentsCount_not_ceil :
    ¬ (dmasDataSegmentsCount 131068 =
        min ((131068 / 4 + MaxDMAIterationsPerTCD - 1) / MaxDMAIterationsPerTCD) 4) := by
  decide

/-- C3 (amended): the constructor computes
`min(bufferWords / maxTransferCountPerDescriptor + 1, 4)` descriptors —
this agrees with `ceil(bufferWords / max)` capped at 4 exactly when `max`
does not divide the word count (otherwise there is one extra, zero-length
descriptor) — and the count is silently clamped to 4; the constructor
never rejects a configuration (it is a total function). -/
theorem dmasDataSegmentsCount_formula :
    ∀ bsz : Nat,
      dmasDataSegmentsCount bsz ≤ 4 ∧
      dmasDataSegmentsCount bsz = min (bsz / 4 / MaxDMAIterationsPerTCD + 1) 4 ∧
      (¬ (MaxDMAIterationsPerTCD ∣ bsz / 4) →
        dmasDataSegmentsCount bsz =
          min ((bsz / 4 + MaxDMAIterationsPerTCD - 1) / MaxDMAIterationsPerTCD) 4) := by
  intro bsz
  simp only [dmasDataSegmentsCount, MaxDMAIterationsPerTCD]
  refine ⟨?_, ?_, ?_⟩
  · split_ifs <;> omega
  · rw [Nat.min_def]; split_ifs <;> omega
  · intro h
    rw [Nat.min_def]; split_ifs <;> omega

/-- Witness for `dmasDataSegmentsCount_formula` at `bsz = 400`. -/
theorem dmasDataSegmentsCount_formula_witness :
    ¬ (MaxDMAIterationsPerTCD ∣ 400 / 4) ∧
    dmasDataSegmentsCount 400 =
      min ((400 / 4 + MaxDMAIterationsPerTCD - 1) / MaxDMAIterationsPerTCD) 4 :=
  ⟨by decide, (dmasDataSegmentsCount_formula 400).2.2 (by decide)⟩

/-! ## C4: DATA_STREAM descriptor lengths and offsets -/

/-- C4 counterexample: at `bsz = 131068` bytes the word count `32767`
divides `MaxDMAIterationsPerTCD` evenly, and the last (second) descriptor
transfers 0 words, not the maximum as the claim states. -/
theorem dataSegments_last_zero_when_divides :
    (dataSegments 0 131068).map Prod.snd = [MaxDMAIterationsPerTCD, 0] ∧
    (131068 / 4) % MaxDMAIterationsPerTCD = 0 := by
  decide

/-- C4 (amended): descriptor `i` reads from the active buffer at word
offset `i × maxTransferCountPerDescriptor`; every descriptor except the
last transfers exactly `max` words; the last descriptor transfers
`bufferWords mod max` words when the configuration fits the 4-descriptor
cap (`bufferWords < 4 × max`) — which is 0 when `max` divides the word
count — and `max` words when the count was clamped at the cap. -/
theorem dataSegments_sizes :
    ∀ (active bsz i : Nat), i < dmasDataSegmentsCount bsz →
      (dataSegments active bsz).get? i =
        some (active + i * MaxDMAIterationsPerTCD,
          if i + 1 < dmasDataSegmentsCount bsz then MaxDMAIterationsPerTCD
          else if bsz / 4 < 4 * MaxDMAIterationsPerTCD then (bsz / 4) % MaxDMAIterationsPerTCD
          else MaxDMAIterationsPerTCD) := by
  intro active bsz i hi
  rw [dataSegments, segLoop_get _ _ _ _ hi]
  have h2 : min (bsz / 4 - i * MaxDMAIterationsPerTCD) MaxDMAIterationsPerTCD
      = (if i + 1 < dmasDataSegmentsCount bsz then MaxDMAIterationsPerTCD
         else if bsz / 4 < 4 * MaxDMAIterationsPerTCD then (bsz / 4) % MaxDMAIterationsPerTCD
         else MaxDMAIterationsPerTCD) := by
    simp only [dmasDataSegmentsCount, MaxDMAIterationsPerTCD] at hi ⊢
    rw [Nat.min_def]
    split_ifs at hi ⊢ <;> omega
  rw [h2]

/-- Witness for `dataSegments_sizes` at `active = 100`, `bsz = 400`, `i = 0`. -/
theorem dataSegments_sizes_witness :
    0 < dmasDataSegmentsCount 400 ∧
    (dataSegments 100 400).get? 0 =
      some (100 + 0 * MaxDMAIterationsPerTCD,
        if 0 + 1 < dmasDataSegmentsCount 400 then MaxDMAIterationsPerTCD
        else if 400 / 4 < 4 * MaxDMAIterationsPerTCD then (400 / 4) % MaxDMAIterationsPerTCD
        else MaxDMAIterationsPerTCD) :=
  ⟨by decide, dataSegments_sizes 100 400 0 (by decide)⟩

/-! ## C8: successor accesses of the chain-building loop -/

/-- C8: for the accepted configuration `bsz = 524288` bytes (e.g. a
`PixelBuffer<4096, QUADCOLOR, SINGLE_BUFFER>`), the computed descriptor
count reaches the cap of 4, and the chain-building loop's final iteration
accesses `dmasDataSegments[4]` — one past the end of the 4-element
array. -/
theorem configureDma_successor_access_out_of_bounds :
    4 ∈ successorAccesses (dmasDataSegmentsCount 524288) ∧ ¬ (4 < 4) := by
  decide

/-! ## C9: setChannelType no-op conditions and GRBW invariant -/

lemma setChannelType_preserves_no_GRBW
    (cc : ColorCapability) (h : cc ≠ ColorCapability.QUADCOLOR)
    (types : Nat → ChannelType) (htypes : ∀ c, types c ≠ ChannelType.GRBW)
    (channel : Nat) (t : ChannelType) :
    ∀ c, setChannelType cc types channel t c ≠ ChannelType.GRBW := by
  intro c
  simp only [setChannelType]
  by_cases h1 : 32 ≤ channel
  · rw [if_pos h1]; exact htypes c
  · rw [if_neg h1]
    by_cases h2 : t = ChannelType.GRBW ∧ cc ≠ ColorCapability.QUADCOLOR
    · rw [if_pos h2]; exact htypes c
    · rw [if_neg h2]
      by_cases h3 : c = channel
      · rw [if_pos h3]
        intro ht
        exact h2 ⟨ht, h⟩
      · rw [if_neg h3]; exact htypes c

/-- C9: `setChannelType` is a no-op for a channel outside 0..31 and for a
GRBW request on a driver whose color capacity is not QUADCOLOR; starting
from a GRBW-free channel-type table (the zero-initialised table is all
RGB), no sequence of `setChannelType` calls on a TRICOLOR driver ever
makes any channel GRBW. -/
theorem setChannelType_noop_and_invariant :
    (∀ (cc : ColorCapability) (types : Nat → ChannelType) (channel : Nat) (t : ChannelType),
      32 ≤ channel → setChannelType cc types channel t = types) ∧
    (∀ (cc : ColorCapability) (types : Nat → ChannelType) (channel : Nat),
      cc ≠ ColorCapability.QUADCOLOR →
        setChannelType cc types channel ChannelType.GRBW = types) ∧
    (∀ cc : ColorCapability, cc ≠ ColorCapability.QUADCOLOR →
      ∀ (calls : List (Nat × ChannelType)) (types : Nat → ChannelType),
        (∀ c, types c ≠ ChannelType.GRBW) →
        ∀ c, (calls.foldl (fun ts p => setChannelType cc ts p.1 p.2) types) c
          ≠ ChannelType.GRBW) := by
  refine ⟨?_, ?_, ?_⟩
  · intro cc types channel t h
    simp only [setChannelType, if_pos h]
  · intro cc types channel h
    simp only [setChannelType]
    by_cases h1 : 32 ≤ channel
    · rw [if_pos h1]
    · rw [if_neg h1, if_pos (by simp [h])]
  · intro cc hcc calls
    induction calls with
    | nil => intro types htypes c; exact htypes c
    | cons p calls ih =>
      intro types htypes c
      exact ih (setChannelType cc types p.1 p.2)
        (setChannelType_preserves_no_GRBW cc hcc types htypes p.1 p.2) c

/-- Witness for `setChannelType_noop_and_invariant`: channel 40 is a
no-op; a GRBW request on a TRICOLOR driver is a no-op; a call sequence
on a TRICOLOR driver leaves channel 0 non-GRBW. -/
theorem setChannelType_noop_and_invariant_witness :
    setChannelType ColorCapability.TRICOLOR (fun _ => ChannelType.RGB) 40 ChannelType.GRB
      = (fun _ => ChannelType.RGB) ∧
    setChannelType ColorCapability.TRICOLOR (fun _ => ChannelType.RGB) 3 ChannelType.GRBW
      = (fun _ => ChannelType.RGB) ∧
    ([(0, ChannelType.GRBW), (5, ChannelType.GRB)].foldl
        (fun ts p => setChannelType ColorCapability.TRICOLOR ts p.1 p.2)
        (fun _ => ChannelType.RGB)) 0 ≠ ChannelType.GRBW :=
  ⟨setChannelType_noop_and_invariant.1 _ _ 40 _ (by decide),
   setChannelType_noop_and_invariant.2.1 _ _ 3 (by decide),
   setChannelType_noop_and_invariant.2.2 _ (by decide) _ _ (fun c => by decide) 0⟩

/-! ## C10: bufferReady -/

/-- C10: `bufferReady` is a pure query (modelled as a function of the
state); in caller-paced `SINGLE_BUFFER_BLOCKING` mode it returns true iff
the DMA channel is no longer enabled; in every other mode it returns
true. -/
theorem bufferReady_spec :
    (∀ s : DriverState,
      bufferReady BufferMode.SINGLE_BUFFER_BLOCKING s = true ↔ s.dmaEnabled = false) ∧
    (∀ (bm : BufferMode) (s : DriverState),
      bm ≠ BufferMode.SINGLE_BUFFER_BLOCKING → bufferReady bm s = true) := by
  constructor
  · intro s
    cases h : s.dmaEnabled <;> simp [bufferReady, h]
  · intro bm s hbm
    cases bm with
    | SINGLE_BUFFER_BLOCKING => exact absurd rfl hbm
    | SINGLE_BUFFER => simp [bufferReady]
    | DOUBLE_BUFFER => simp [bufferReady]

/-- Witness for `bufferReady_spec`: in double-buffer mode `bufferReady`
is true even while the DMA channel is enabled. -/
theorem bufferReady_spec_witness :
    bufferReady BufferMode.DOUBLE_BUFFER ⟨0, 0, fun _ => 0, false, true⟩ = true :=
  bufferReady_spec.2 BufferMode.DOUBLE_BUFFER ⟨0, 0, fun _ => 0, false, true⟩ (by decide)

/-! ## C6: out-of-range pixel accesses -/

/-- C6: with `channel > 31` or `ledIndex ≥` the configured LED count,
`setLed` leaves the frame buffer unchanged and `getLed` returns the
value-initialised zero color (whatever indeterminate value `c0` its local
accumulator started from). -/
theorem out_of_range_accessors_noop :
    ∀ (types : Nat → ChannelType) (leds channel ledIndex : Nat) (color : Color)
      (buffer : Buffer) (c0 : Nat),
      31 < channel ∨ leds ≤ ledIndex →
      setLed types leds channel ledIndex color buffer = buffer ∧
      (getLed types leds channel ledIndex buffer c0).raw = 0 := by
  intro types leds channel ledIndex color buffer c0 h
  constructor
  · simp only [setLed, if_pos h]
  · simp only [getLed, if_pos h]

/-- Witness for `out_of_range_accessors_noop` at channel 32. -/
theorem out_of_range_accessors_noop_witness :
    ((31 : Nat) < 32 ∨ (8 : Nat) ≤ 0) ∧
    setLed (fun _ => ChannelType.GRB) 8 32 0 ⟨12345⟩ (fun _ => 99) = (fun _ => 99) ∧
    (getLed (fun _ => ChannelType.GRB) 8 32 0 (fun _ => 99) 777).raw = 0 :=
  ⟨Or.inl (by decide),
   (out_of_range_accessors_noop (fun _ => ChannelType.GRB) 8 32 0 ⟨12345⟩ (fun _ => 99) 777
      (Or.inl (by decide))).1,
   (out_of_range_accessors_noop (fun _ => ChannelType.GRB) 8 32 0 ⟨12345⟩ (fun _ => 99) 777
      (Or.inl (by decide))).2⟩

/-! ## C1: double-buffer swap and the completion-interrupt handler -/

/-- C1: in `DOUBLE_BUFFER` mode on a started driver, `flipBuffers`
exchanges the active and inactive buffer pointers immediately, leaves
every DATA_STREAM descriptor's `SADDR` unchanged, and arms the completion
interrupt by setting the INTMAJOR bit of the CLOSE_GATE (`dmasSetZeros`)
TCD — the descriptor whose completion is the CLOSE_GATE→FRAME_GAP
boundary; when `dmaIsr` then runs it clears that bit (disabling its own
re-arming) and rewrites the `SADDR` of every DATA_STREAM descriptor to
the now-active buffer at word offset `i × MaxDMAIterationsPerTCD`. -/
theorem flipBuffers_swap_and_isr_retarget :
    ∀ (s : DriverState) (count : Nat),
      (flipBuffers BufferMode.DOUBLE_BUFFER true s).activeBuffer = s.inactiveBuffer ∧
      (flipBuffers BufferMode.DOUBLE_BUFFER true s).inactiveBuffer = s.activeBuffer ∧
      (∀ i, (flipBuffers BufferMode.DOUBLE_BUFFER true s).saddr i = s.saddr i) ∧
      (flipBuffers BufferMode.DOUBLE_BUFFER true s).closeGateIntMajor = true ∧
      (dmaIsr count (flipBuffers BufferMode.DOUBLE_BUFFER true s)).closeGateIntMajor = false ∧
      (∀ i, i < count →
        (dmaIsr count (flipBuffers BufferMode.DOUBLE_BUFFER true s)).saddr i
          = s.inactiveBuffer + i * MaxDMAIterationsPerTCD) ∧
      (∀ i, count ≤ i →
        (dmaIsr count (flipBuffers BufferMode.DOUBLE_BUFFER true s)).saddr i = s.saddr i) := by
  intro s count
  refine ⟨rfl, rfl, fun i => rfl, rfl, rfl, ?_, ?_⟩
  · intro i hi
    show saddrLoop s.saddr s.inactiveBuffer 0 count i
      = s.inactiveBuffer + i * MaxDMAIterationsPerTCD
    rw [saddrLoop_get, if_pos ⟨Nat.zero_le i, by omega⟩, Nat.sub_zero]
  · intro i hi
    show saddrLoop s.saddr s.inactiveBuffer 0 count i = s.saddr i
    rw [saddrLoop_get, if_neg (by omega)]

/-- Witness for `flipBuffers_swap_and_isr_retarget` on a concrete state
with active word address 10, inactive 20 and two descriptors. -/
theorem flipBuffers_swap_and_isr_retarget_witness :
    (1 : Nat) < 2 ∧
    (dmaIsr 2 (flipBuffers BufferMode.DOUBLE_BUFFER true ⟨10, 20, fun _ => 7, false, false⟩)).saddr 1
      = 20 + 1 * MaxDMAIterationsPerTCD :=
  ⟨by decide,
   (flipBuffers_swap_and_isr_retarget ⟨10, 20, fun _ => 7, false, false⟩ 2).2.2.2.2.2.1 1
     (by decide)⟩

/-! ## C5: begin() validation -/

/-- C5 counterexample: `begin` stores the requested peripheral unit into
the `flexIOModule` field before validating anything, so a failing call
(here: LED count 0) returns false but leaves the driver instance with a
mutated field — the claim's "every field of the driver instance ...
unchanged" is false. -/
theorem begin_mutates_fields_on_failure :
    (begin (fun _ _ => 0) ⟨0, BufferMode.SINGLE_BUFFER, 0, 0, 0, ⟨2, 3, 4⟩, false, 0, 0⟩
        ⟨0, fun _ => false, true⟩ 1 ⟨5, 6, 7⟩).1 = false ∧
    (begin (fun _ _ => 0) ⟨0, BufferMode.SINGLE_BUFFER, 0, 0, 0, ⟨2, 3, 4⟩, false, 0, 0⟩
        ⟨0, fun _ => false, true⟩ 1 ⟨5, 6, 7⟩).2.1.flexIOModule = 1 ∧
    (⟨0, BufferMode.SINGLE_BUFFER, 0, 0, 0, ⟨2, 3, 4⟩, false, 0, 0⟩ : Inst).flexIOModule = 0 :=
  ⟨rfl, rfl, rfl⟩

set_option maxHeartbeats 1000000 in
/-- C5 (amended): `begin` validates, in order, LED count > 0, peripheral
unit index in range, driver not already initialised, unit unclaimed, and
(for the first active instance) PLL5 idle; on any of these violations it
returns false leaving the global instance table, the instance count and
the PLL state unchanged, and every driver-instance field unchanged
*except* the stored peripheral-unit index and pin assignment, which are
overwritten before validation; when all five checks and the subsequent
pin validation pass, it returns true. -/
theorem begin_failure_no_partial_state :
    ∀ (pinMap : Nat → Nat → Nat) (s : Inst) (g : Globals) (m : Nat) (pins : FlexPins),
      (s.leds = 0 ∨ 1 < m ∨ s.pFlex = true ∨ g.instances m = true ∨
          (g.instanceCount = 0 ∧ g.pll5PowerDown = false) →
        begin pinMap s g m pins = (false, { s with flexIOModule := m, flexPins := pins }, g)) ∧
      ((¬ s.leds = 0) ∧ (¬ 1 < m) ∧ s.pFlex = false ∧ g.instances m = false ∧
          (¬ (g.instanceCount = 0 ∧ g.pll5PowerDown = false)) ∧
          pinMap m pins.SRCLK ≠ 255 ∧ pinMap m pins.RCLK ≠ 255 ∧ pinMap m pins.SER ≠ 255 →
        (begin pinMap s g m pins).1 = true) := by
  intro pinMap s g m pins
  constructor
  · intro h
    simp only [begin]
    split_ifs with h1 h2 h3 h4 h5 h6 h7 h8 <;>
      first
        | rfl
        | (exfalso
           rcases h with h | h | h | h | h <;> simp_all)
  · intro h
    obtain ⟨ha, hb, hc, hd, he, hf, hg, hh⟩ := h
    simp only [begin]
    split_ifs with h1 h2 h3 h4 h5 h6 h7 h8 <;> simp_all

/-- Witness for `begin_failure_no_partial_state`: failing `begin` with
LED count 0 returns false with only the two assigned fields changed. -/
theorem begin_failure_no_partial_state_witness :
    ((0 : Nat) = 0 ∨ 1 < 0 ∨ False ∨ False ∨ ((1 : Nat) = 0 ∧ False)) ∧
    begin (fun _ _ => 3) ⟨0, BufferMode.SINGLE_BUFFER, 64, 0, 0, ⟨2, 3, 4⟩, false, 0, 0⟩
        ⟨1, fun _ => false, true⟩ 0 ⟨6, 7, 8⟩
      = (false, ⟨0, BufferMode.SINGLE_BUFFER, 64, 0, 0, ⟨6, 7, 8⟩, false, 0, 0⟩,
          ⟨1, fun _ => false, true⟩) :=
  ⟨Or.inl rfl,
   (begin_failure_no_partial_state (fun _ _ => 3)
      ⟨0, BufferMode.SINGLE_BUFFER, 64, 0, 0, ⟨2, 3, 4⟩, false, 0, 0⟩
      ⟨1, fun _ => false, true⟩ 0 ⟨6, 7, 8⟩).1 (Or.inl rfl)⟩

/-! ## Bit-level characterisation of the set/get loops (for C7 and C2) -/

lemma testBit_ge_32 (x : Nat) (h : x < 2 ^ 32) (n : Nat) (hn : 32 ≤ n) :
    x.testBit n = false :=
  Nat.testBit_lt_two_pow (lt_of_lt_of_le h (Nat.pow_le_pow_right (by norm_num) hn))

lemma setLoop_zero (chMask val : Nat) (buffer : Buffer) (addr : Nat) :
    setLoop chMask val buffer addr 0 = buffer := by
  rw [setLoop]
  simp

lemma setLoop_succ (chMask val : Nat) (buffer : Buffer) (addr mask : Nat) (h : mask ≠ 0) :
    setLoop chMask val buffer addr mask =
      setLoop chMask val
        (fun w =>
          if w = addr then
            (if val &&& mask ≠ 0 then buffer w ||| chMask
             else buffer w &&& (4294967295 ^^^ chMask))
          else buffer w)
        (addr + 1) (mask >>> 1) := by
  rw [setLoop]
  rw [dif_neg h]

/-- Unrolling the write loop started with mask `2 ^ k`: word
`addr + t` (for `t ≤ k`) has the channel's bit forced to bit `k - t` of
the value, every other word is untouched. -/
lemma setLoop_spec (chMask val : Nat) :
    ∀ (k : Nat) (buffer : Buffer) (addr w : Nat),
      setLoop chMask val buffer addr (2 ^ k) w =
        if addr ≤ w ∧ w ≤ addr + k then
          (if val.testBit (k - (w - addr)) = true then buffer w ||| chMask
           else buffer w &&& (4294967295 ^^^ chMask))
        else buffer w := by
  intro k
  induction k with
  | zero =>
    intro buffer addr w
    rw [setLoop_succ chMask val buffer addr (2 ^ 0) (by norm_num)]
    have hs : (2 : Nat) ^ 0 >>> 1 = 0 := by decide
    rw [hs, setLoop_zero]
    by_cases hw : w = addr
    · rw [if_pos hw, if_pos (show addr ≤ w ∧ w ≤ addr + 0 by omega)]
      have he : (0 : Nat) - (w - addr) = 0 := by omega
      rw [he]
      by_cases hb : val.testBit 0 = true
      · rw [if_pos ((and_two_pow_ne_zero_iff val 0).mpr hb), if_pos hb]
      · rw [if_neg (fun hc => hb ((and_two_pow_ne_zero_iff val 0).mp hc)), if_neg hb]
    · rw [if_neg hw, if_neg (show ¬(addr ≤ w ∧ w ≤ addr + 0) by omega)]
  | succ k ih =>
    intro buffer addr w
    rw [setLoop_succ chMask val buffer addr (2 ^ (k + 1)) (by positivity)]
    have hs : (2 : Nat) ^ (k + 1) >>> 1 = 2 ^ k := by
      show (2 : Nat) ^ (k + 1) / 2 = 2 ^ k
      rw [pow_succ]
      exact Nat.mul_div_cancel _ (by norm_num)
    rw [hs, ih]
    by_cases h1 : w = addr
    · rw [if_neg (show ¬(addr + 1 ≤ w ∧ w ≤ addr + 1 + k) by omega), if_pos h1,
        if_pos (show addr ≤ w ∧ w ≤ addr + (k + 1) by omega)]
      have he : k + 1 - (w - addr) = k + 1 := by omega
      rw [he]
      by_cases hb : val.testBit (k + 1) = true
      · rw [if_pos ((and_two_pow_ne_zero_iff val (k + 1)).mpr hb), if_pos hb]
      · rw [if_neg (fun hc => hb ((and_two_pow_ne_zero_iff val (k + 1)).mp hc)), if_neg hb]
    · by_cases h2 : addr + 1 ≤ w ∧ w ≤ addr + 1 + k
      · rw [if_pos h2, if_neg h1,
          if_pos (show addr ≤ w ∧ w ≤ addr + (k + 1) by omega)]
        have he : k - (w - (addr + 1)) = k + 1 - (w - addr) := by omega
        rw [he]
      · rw [if_neg h2, if_neg h1,
          if_neg (show ¬(addr ≤ w ∧ w ≤ addr + (k + 1)) by omega)]

/-- Unrolling the read loop: it walks `count` words below `addr` from the
top down, so bit `j` of the result (for `32 - count ≤ j < 32`) is the
channel's bit of word `addr + 31 - j - count`, and the remaining bits
come from the initial accumulator shifted right `count` times. -/
lemma getLoop_spec (chMask : Nat) (buffer : Buffer) :
    ∀ (count addr craw : Nat), count ≤ 32 → count ≤ addr → craw < 2 ^ 32 →
      ∀ j, (getLoop chMask buffer addr count craw).testBit j =
        if 32 - count ≤ j ∧ j < 32 then
          decide (buffer (addr + 31 - j - count) &&& chMask ≠ 0)
        else craw.testBit (j + count) := by
  intro count
  induction count with
  | zero =>
    intro addr craw h32 haddr hcraw j
    rw [getLoop, if_neg (show ¬(32 - 0 ≤ j ∧ j < 32) by omega), Nat.add_zero]
  | succ count ih =>
    intro addr craw h32 haddr hcraw j
    rw [getLoop]
    have hcraw2 : craw >>> 1 < 2 ^ 32 := by
      calc craw >>> 1 = craw / 2 := rfl
        _ ≤ craw := Nat.div_le_self craw 2
        _ < 2 ^ 32 := hcraw
    have hcraw' :
        (if buffer (addr - 1) &&& chMask ≠ 0 then (craw >>> 1) ||| (1 <<< 31)
         else craw >>> 1) < 2 ^ 32 := by
      split_ifs
      · exact Nat.or_lt_two_pow hcraw2 (by norm_num [one_shiftLeft_eq])
      · exact hcraw2
    rw [ih (addr - 1) _ (by omega) (by omega) hcraw' j]
    by_cases hA : 32 - count ≤ j ∧ j < 32
    · rw [if_pos hA, if_pos (show 32 - (count + 1) ≤ j ∧ j < 32 by omega)]
      have he : addr - 1 + 31 - j - count = addr + 31 - j - (count + 1) := by omega
      rw [he]
    · rw [if_neg hA]
      by_cases hB : 32 - (count + 1) ≤ j ∧ j < 32
      · rw [if_pos hB]
        have hj : j + count = 31 := by omega
        have he : addr + 31 - j - (count + 1) = addr - 1 := by omega
        rw [hj, he]
        by_cases hread : buffer (addr - 1) &&& chMask ≠ 0
        · rw [if_pos hread, Nat.testBit_or, one_shiftLeft_eq, Nat.testBit_two_pow,
            Nat.testBit_shiftRight]
          have hz : craw.testBit (1 + 31) = false := testBit_ge_32 craw hcraw _ (by norm_num)
          rw [hz]
          simp [hread]
        · rw [if_neg hread, Nat.testBit_shiftRight]
          have hz : craw.testBit (1 + 31) = false := testBit_ge_32 craw hcraw _ (by norm_num)
          rw [hz]
          simp [hread]
      · rw [if_neg hB]
        by_cases hread : buffer (addr - 1) &&& chMask ≠ 0
        · rw [if_pos hread, Nat.testBit_or, one_shiftLeft_eq, Nat.testBit_two_pow,
            Nat.testBit_shiftRight]
          by_cases hlow : j + count < 31
          · have hd : decide (31 = j + count) = false := by simp; omega
            rw [hd, Bool.or_false]
            congr 1
            omega
          · have hj32 : 32 ≤ j := by omega
            have hz1 : craw.testBit (1 + (j + count)) = false :=
              testBit_ge_32 craw hcraw _ (by omega)
            have hz2 : craw.testBit (j + (count + 1)) = false :=
              testBit_ge_32 craw hcraw _ (by omega)
            have hd : decide (31 = j + count) = false := by simp; omega
            rw [hz1, hz2, hd, Bool.or_false]
        · rw [if_neg hread, Nat.testBit_shiftRight]
          congr 1
          omega

/-- Pointwise description of an in-range `setLed` on a GRBW channel:
word `32 × ledIndex + t` (for `t ≤ 31`) has the channel's bit forced to
bit `31 - t` of the raw color, every other word untouched. -/
lemma setLed_quad (types : Nat → ChannelType) (leds channel ledIndex : Nat)
    (color : Color) (buffer : Buffer)
    (htype : types channel = ChannelType.GRBW)
    (hch : channel ≤ 31) (hidx : ledIndex < leds) (w : Nat) :
    setLed types leds channel ledIndex color buffer w =
      if 32 * ledIndex ≤ w ∧ w ≤ 32 * ledIndex + 31 then
        (if color.raw.testBit (31 - (w - 32 * ledIndex)) = true
         then buffer w ||| 1 <<< channel
         else buffer w &&& (4294967295 ^^^ 1 <<< channel))
      else buffer w := by
  have h0 : ¬(31 < channel ∨ leds ≤ ledIndex) := by omega
  simp only [setLed, if_neg h0, if_pos htype]
  have h31 : (1 : Nat) <<< 31 = 2 ^ 31 := one_shiftLeft_eq 31
  rw [h31, setLoop_spec]

/-- Pointwise description of an in-range `setLed` on a three-channel
format: word `24 × ledIndex + t` (for `t ≤ 23`) has the channel's bit
forced to bit `23 - t` of `raw >>> 8`, every other word untouched. -/
lemma setLed_tri (types : Nat → ChannelType) (leds channel ledIndex : Nat)
    (color : Color) (buffer : Buffer)
    (htype : ¬ types channel = ChannelType.GRBW)
    (hch : channel ≤ 31) (hidx : ledIndex < leds) (w : Nat) :
    setLed types leds channel ledIndex color buffer w =
      if 24 * ledIndex ≤ w ∧ w ≤ 24 * ledIndex + 23 then
        (if (color.raw >>> 8).testBit (23 - (w - 24 * ledIndex)) = true
         then buffer w ||| 1 <<< channel
         else buffer w &&& (4294967295 ^^^ 1 <<< channel))
      else buffer w := by
  have h0 : ¬(31 < channel ∨ leds ≤ ledIndex) := by omega
  simp only [setLed, if_neg h0, if_neg htype]
  have h23 : (1 : Nat) <<< 23 = 2 ^ 23 := one_shiftLeft_eq 23
  rw [h23, setLoop_spec]

lemma written_testBit_other_or (x channel j : Nat) (hne : j ≠ channel) :
    (x ||| 1 <<< channel).testBit j = x.testBit j := by
  rw [Nat.testBit_or, one_shiftLeft_eq, Nat.testBit_two_pow]
  rw [decide_eq_false (Ne.symm hne), Bool.or_false]

lemma written_testBit_other_and (x channel j : Nat) (hj : j ≤ 31) (hne : j ≠ channel) :
    (x &&& (4294967295 ^^^ 1 <<< channel)).testBit j = x.testBit j := by
  have h32 : (4294967295 : Nat) = 2 ^ 32 - 1 := by norm_num
  rw [Nat.testBit_and, h32, Nat.testBit_xor, Nat.testBit_two_pow_sub_one,
    one_shiftLeft_eq, Nat.testBit_two_pow]
  have hd1 : decide (j < 32) = true := decide_eq_true (by omega)
  have hd2 : decide (channel = j) = false := decide_eq_false (Ne.symm hne)
  rw [hd1, hd2]
  cases x.testBit j <;> rfl

lemma written_self_or (x channel : Nat) :
    (x ||| 1 <<< channel) &&& 1 <<< channel ≠ 0 := by
  rw [one_shiftLeft_eq]
  rw [and_two_pow_ne_zero_iff]
  rw [Nat.testBit_or, Nat.testBit_two_pow]
  rw [decide_eq_true rfl, Bool.or_true]

lemma written_self_and (x channel : Nat) (hch : channel ≤ 31) :
    (x &&& (4294967295 ^^^ 1 <<< channel)) &&& 1 <<< channel = 0 := by
  rw [one_shiftLeft_eq]
  by_contra hne
  have := (and_two_pow_ne_zero_iff _ channel).mp hne
  rw [Nat.testBit_and] at this
  have h32 : (4294967295 : Nat) = 2 ^ 32 - 1 := by norm_num
  rw [h32, Nat.testBit_xor, Nat.testBit_two_pow_sub_one, Nat.testBit_two_pow] at this
  have hd1 : decide (channel < 32) = true := decide_eq_true (by omega)
  have hd2 : decide (channel = channel) = true := decide_eq_true rfl
  rw [hd1, hd2] at this
  simp at this

/-! ## C7: a valid setLed writes only the channel's bit in the pixel's window -/

/-- C7: for a valid (channel, index, color), `setLed` leaves every word
outside the `bitDepth`-word window of that index (where `bitDepth` is 32
for a GRBW channel and 24 otherwise) unchanged, and inside the window it
changes no bit other than bit `channel` of each word. -/
theorem setLed_frame_effect :
    ∀ (types : Nat → ChannelType) (leds channel ledIndex : Nat) (color : Color)
      (buffer : Buffer),
      channel ≤ 31 → ledIndex < leds →
      (∀ w,
        (w < (if types channel = ChannelType.GRBW then 32 else 24) * ledIndex ∨
          (if types channel = ChannelType.GRBW then 32 else 24) * ledIndex +
            (if types channel = ChannelType.GRBW then 32 else 24) ≤ w) →
        setLed types leds channel ledIndex color buffer w = buffer w) ∧
      (∀ w j, j ≤ 31 → j ≠ channel →
        (setLed types leds channel ledIndex color buffer w).testBit j
          = (buffer w).testBit j) := by
  intro types leds channel ledIndex color buffer hch hidx
  by_cases htype : types channel = ChannelType.GRBW
  · constructor
    · intro w hw
      simp only [if_pos htype] at hw
      rw [setLed_quad types leds channel ledIndex color buffer htype hch hidx w,
        if_neg (show ¬(32 * ledIndex ≤ w ∧ w ≤ 32 * ledIndex + 31) by omega)]
    · intro w j hj hne
      rw [setLed_quad types leds channel ledIndex color buffer htype hch hidx w]
      by_cases hwin : 32 * ledIndex ≤ w ∧ w ≤ 32 * ledIndex + 31
      · rw [if_pos hwin]
        by_cases hb : color.raw.testBit (31 - (w - 32 * ledIndex)) = true
        · rw [if_pos hb, written_testBit_other_or _ _ _ hne]
        · rw [if_neg hb, written_testBit_other_and _ _ _ hj hne]
      · rw [if_neg hwin]
  · constructor
    · intro w hw
      simp only [if_neg htype] at hw
      rw [setLed_tri types leds channel ledIndex color buffer htype hch hidx w,
        if_neg (show ¬(24 * ledIndex ≤ w ∧ w ≤ 24 * ledIndex + 23) by omega)]
    · intro w j hj hne
      rw [setLed_tri types leds channel ledIndex color buffer htype hch hidx w]
      by_cases hwin : 24 * ledIndex ≤ w ∧ w ≤ 24 * ledIndex + 23
      · rw [if_pos hwin]
        by_cases hb : (color.raw >>> 8).testBit (23 - (w - 24 * ledIndex)) = true
        · rw [if_pos hb, written_testBit_other_or _ _ _ hne]
        · rw [if_neg hb, written_testBit_other_and _ _ _ hj hne]
      · rw [if_neg hwin]

/-- Witness for `setLed_frame_effect`: on a GRB channel with one LED,
word 100 (outside the 24-word window) is untouched, and bit 1 of an
in-window word is untouched when writing channel 0. -/
theorem setLed_frame_effect_witness :
    (0 : Nat) ≤ 31 ∧ (0 : Nat) < 1 ∧
    setLed (fun _ => ChannelType.GRB) 1 0 0 ⟨305419896⟩ (fun _ => 5) 100 = 5 ∧
    (setLed (fun _ => ChannelType.GRB) 1 0 0 ⟨305419896⟩ (fun _ => 5) 3).testBit 1
      = ((5 : Nat)).testBit 1 :=
  ⟨by decide, by decide,
   (setLed_frame_effect (fun _ => ChannelType.GRB) 1 0 0 ⟨305419896⟩ (fun _ => 5)
      (by decide) (by decide)).1 100 (by decide),
   (setLed_frame_effect (fun _ => ChannelType.GRB) 1 0 0 ⟨305419896⟩ (fun _ => 5)
      (by decide) (by decide)).2 3 1 (by decide) (by decide)⟩

/-! ## C2: set/get round trip -/

/-- C2: for every channel 0..31, every index below the configured LED
count and every 32-bit color, setting the pixel and reading it back with
the same (channel, index) returns the color exactly for a GRBW channel,
and the color with the padding byte (the `_`/white field, the
least-significant byte of the packed little-endian `raw` value — the
bits a three-channel format cannot represent) discarded for the RGB and
GRB channel types. -/
theorem set_get_roundtrip :
    ∀ (types : Nat → ChannelType) (leds channel ledIndex : Nat) (buffer : Buffer)
      (color : Color),
      channel ≤ 31 → ledIndex < leds → color.raw < 2 ^ 32 →
      (getPixel types leds channel ledIndex
          (setLed types leds channel ledIndex color buffer)).raw
        = if types channel = ChannelType.GRBW then color.raw
          else (color.raw >>> 8) <<< 8 := by
  intro types leds channel ledIndex buffer color hch hidx hraw
  have h0 : ¬(31 < channel ∨ leds ≤ ledIndex) := by omega
  by_cases htype : types channel = ChannelType.GRBW
  · rw [if_pos htype]
    simp only [getPixel, if_neg h0, if_pos htype]
    apply Nat.eq_of_testBit_eq
    intro j
    rw [getLoop_spec (1 <<< channel) _ 32 (32 * ledIndex + 32) 0 (by omega) (by omega)
      (by norm_num) j]
    by_cases hj : j < 32
    · rw [if_pos (show 32 - 32 ≤ j ∧ j < 32 by omega)]
      have he : 32 * ledIndex + 32 + 31 - j - 32 = 32 * ledIndex + (31 - j) := by omega
      rw [he, setLed_quad types leds channel ledIndex color buffer htype hch hidx]
      rw [if_pos (show 32 * ledIndex ≤ 32 * ledIndex + (31 - j) ∧
        32 * ledIndex + (31 - j) ≤ 32 * ledIndex + 31 by omega)]
      have he2 : 31 - (32 * ledIndex + (31 - j) - 32 * ledIndex) = j := by omega
      rw [he2]
      by_cases hb : color.raw.testBit j = true
      · rw [if_pos hb, decide_eq_true (written_self_or _ channel), hb]
      · rw [if_neg hb]
        have hzero := written_self_and (buffer (32 * ledIndex + (31 - j))) channel hch
        have hz2 : ¬ ((buffer (32 * ledIndex + (31 - j)) &&&
            (4294967295 ^^^ 1 <<< channel)) &&& 1 <<< channel ≠ 0) := fun hc => hc hzero
        rw [decide_eq_false hz2]
        simp only [Bool.not_eq_true] at hb
        rw [hb]
    · rw [if_neg (by omega), Nat.zero_testBit]
      exact (testBit_ge_32 color.raw hraw j (by omega)).symm
  · rw [if_neg htype]
    simp only [getPixel, if_neg h0, if_neg htype]
    apply Nat.eq_of_testBit_eq
    intro j
    rw [getLoop_spec (1 <<< channel) _ 24 (24 * ledIndex + 24) 0 (by omega) (by omega)
      (by norm_num) j]
    rw [Nat.testBit_shiftLeft]
    by_cases hj : 8 ≤ j ∧ j < 32
    · rw [if_pos (show 32 - 24 ≤ j ∧ j < 32 by omega)]
      have he : 24 * ledIndex + 24 + 31 - j - 24 = 24 * ledIndex + (31 - j) := by omega
      rw [he, setLed_tri types leds channel ledIndex color buffer htype hch hidx]
      rw [if_pos (show 24 * ledIndex ≤ 24 * ledIndex + (31 - j) ∧
        24 * ledIndex + (31 - j) ≤ 24 * ledIndex + 23 by omega)]
      have he2 : 23 - (24 * ledIndex + (31 - j) - 24 * ledIndex) = j - 8 := by omega
      rw [he2]
      rw [decide_eq_true (show j ≥ 8 by omega), Bool.true_and]
      by_cases hb : (color.raw >>> 8).testBit (j - 8) = true
      · rw [if_pos hb, decide_eq_true (written_self_or _ channel), hb]
      · rw [if_neg hb]
        have hzero := written_self_and (buffer (24 * ledIndex + (31 - j))) channel hch
        have hz2 : ¬ ((buffer (24 * ledIndex + (31 - j)) &&&
            (4294967295 ^^^ 1 <<< channel)) &&& 1 <<< channel ≠ 0) := fun hc => hc hzero
        rw [decide_eq_false hz2]
        simp only [Bool.not_eq_true] at hb
        rw [hb]
    · rw [if_neg (by omega), Nat.zero_testBit]
      by_cases hj8 : j < 8
      · rw [decide_eq_false (by omega), Bool.false_and]
      · rw [decide_eq_true (by omega), Bool.true_and, Nat.testBit_shiftRight]
        exact (testBit_ge_32 color.raw hraw _ (by omega)).symm

/-- Witness for `set_get_roundtrip` on a GRB channel with raw color
`0x12345678`: the round trip returns the color with its low (padding)
byte cleared. -/
theorem set_get_roundtrip_witness :
    (0 : Nat) ≤ 31 ∧ (0 : Nat) < 1 ∧ (Color.mk 305419896).raw < 2 ^ 32 ∧
    (getPixel (fun _ => ChannelType.GRB) 1 0 0
        (setLed (fun _ => ChannelType.GRB) 1 0 0 ⟨305419896⟩ (fun _ => 0))).raw
      = if (fun _ => ChannelType.GRB) 0 = ChannelType.GRBW then (Color.mk 305419896).raw
        else ((Color.mk 305419896).raw >>> 8) <<< 8 :=
  ⟨by decide, by decide, by decide,
   set_get_roundtrip (fun _ => ChannelType.GRB) 1 0 0 (fun _ => 0) ⟨305419896⟩
     (by decide) (by decide) (by decide)⟩

end TDWS28XX
